import Mathlib

/-!
Verification development for the x-mcp repository (Playwright-driven
Twitter/X scraping core).  The definitions below are a shallow embedding of
the TypeScript source: pure functions (`parseCount`,
`calculateEngagementRate`) are translated directly; DOM-dependent code
(`extractPostFromElement`, `scrapePosts`, `scrapeComments`,
`monitorTimeline`, `doLogin`) is translated by making the queried document
state an explicit value (an element model, a per-cycle feed snapshot, a
clock for `Date.now()`), and JS `number` is modelled as `Option ℚ`, where
`none` stands for `NaN`.
-/

namespace XMCP

/-! ### JS string primitives (models of the ECMAScript built-ins used) -/

/-- Model of JS `\x7bString\x7d.toLowerCase` restricted to ASCII (the inputs fed to
it in the source are ASCII selectors/counts). -/
def jsToLowerChar (c : Char) : Char :=
  if 'A' ≤ c ∧ c ≤ 'Z' then Char.ofNat (c.toNat + 32) else c

/-- Model of JS `String.prototype.trim`: drop whitespace at both ends. -/
def jsTrim (cs : List Char) : List Char :=
  ((cs.dropWhile (fun c => c.isWhitespace)).reverse.dropWhile
    (fun c => c.isWhitespace)).reverse

/-- Model of JS `str.replace(c, '')` for a single-character pattern: remove
the first occurrence of `c`. -/
def removeFirstChar (c : Char) : List Char → List Char
  | [] => []
  | x :: xs => if x = c then xs else x :: removeFirstChar c xs

/-- Substring containment, model of JS `String.prototype.includes`. -/
def containsSub (hay needle : List Char) : Bool :=
  match hay with
  | [] => needle.isEmpty
  | _ :: rest => needle.isPrefixOf hay || containsSub rest needle

/-- Numeric value of a digit string. -/
def digitsToNat (ds : List Char) : Nat :=
  ds.foldl (fun acc c => 10 * acc + (c.toNat - ('0').toNat)) 0

/-- Model of JS `parseFloat`: skip leading whitespace, optional sign,
longest decimal-literal prefix (`digits [. digits] [e[±]digits]`), `none`
for `NaN`.  The `Infinity` literal cannot occur at the call sites (the
argument has been lower-cased), so it is not modelled. -/
def jsParseFloat (cs : List Char) : Option ℚ :=
  let cs1 := cs.dropWhile (fun c => c.isWhitespace)
  let sgn : ℚ × List Char :=
    match cs1 with
    | '-' :: rest => (-1, rest)
    | '+' :: rest => (1, rest)
    | _ => (1, cs1)
  let ip := sgn.2.takeWhile (fun c => c.isDigit)
  let r1 := sgn.2.dropWhile (fun c => c.isDigit)
  let fpr : List Char × List Char :=
    match r1 with
    | '.' :: rest => (rest.takeWhile (fun c => c.isDigit),
                      rest.dropWhile (fun c => c.isDigit))
    | _ => ([], r1)
  if ip.isEmpty ∧ fpr.1.isEmpty then none
  else
    let mant : ℚ :=
      (digitsToNat ip : ℚ) + (digitsToNat fpr.1 : ℚ) / (10 : ℚ) ^ fpr.1.length
    let expo : Int :=
      match fpr.2 with
      | e :: rest =>
        if e = 'e' ∨ e = 'E' then
          let esr : Int × List Char :=
            match rest with
            | '-' :: r2 => (-1, r2)
            | '+' :: r2 => (1, r2)
            | _ => (1, rest)
          let ed := esr.2.takeWhile (fun c => c.isDigit)
          if ed.isEmpty then 0 else esr.1 * (digitsToNat ed : Int)
        else 0
      | [] => 0
    some (sgn.1 * mant * (10 : ℚ) ^ expo)

/-- Model of JS `parseInt(s, 10)`: skip leading whitespace, optional sign,
longest digit prefix; `none` for `NaN`. -/
def jsParseInt (cs : List Char) : Option Int :=
  let cs1 := cs.dropWhile (fun c => c.isWhitespace)
  let sgn : Int × List Char :=
    match cs1 with
    | '-' :: rest => (-1, rest)
    | '+' :: rest => (1, rest)
    | _ => (1, cs1)
  let ds := sgn.2.takeWhile (fun c => c.isDigit)
  if ds.isEmpty then none else some (sgn.1 * (digitsToNat ds : Int))

/-! ### `scripts/twitter/scrapers/utils.ts` : `parseCount` -/

/-- `parseCount` from `scripts/twitter/scrapers/utils.ts` (also used by
`src/src/scrapers`): `none` models a `NaN` result.

```ts
if (!text || text === '') return 0;
text = text.trim().toLowerCase();
if (text.includes('k'))      return parseFloat(text.replace('k', '')) * 1000;
else if (text.includes('m')) return parseFloat(text.replace('m', '')) * 1000000;
return parseInt(text.replace(/,/g, ''), 10) || 0;
``` -/
def parseCount (text : String) : Option ℚ :=
  if text = ("") then some 0
  else
    let t := (jsTrim text.data).map jsToLowerChar
    if t.contains 'k' then
      (jsParseFloat (removeFirstChar 'k' t)).map (fun q => q * 1000)
    else if t.contains 'm' then
      (jsParseFloat (removeFirstChar 'm' t)).map (fun q => q * 1000000)
    else
      some (((jsParseInt (t.filter (fun c => c ≠ ','))).getD 0 : Int) : ℚ)

/-! ### `scripts/twitter/scrapers/utils.ts` : `calculateEngagementRate` -/

/-- `calculateEngagementRate` lifted to `Option ℚ` (JS numbers with `NaN`):
`impressions === 0` is checked first, so a zero impression count yields `0`
even if another argument is `NaN`; otherwise `NaN` propagates. -/
def calculateEngagementRate (likes retweets replies impressions : Option ℚ) :
    Option ℚ :=
  if impressions = some 0 then some 0
  else
    match likes, retweets, replies, impressions with
    | some l, some r, some p, some i => some ((l + r + p) / i * 100)
    | _, _, _, _ => none

/-- Evaluation facts for digit strings, usable by `simp`. -/
theorem digitsToNat_nil : digitsToNat [] = 0 := rfl

/-! ### Data model (`scripts/twitter/types.ts`), runtime-faithful

`number` fields become `Option ℚ` (`none` = `NaN`); fields that can hold a
JS `null` at runtime (the TS annotations notwithstanding) become `Option`;
`Date` values are either parsed from a `datetime` string or taken at the
ambient instant (`new Date()`). -/

/-- A `Date` value: `new Date(s)` or `new Date()` at ambient instant `t`. -/
inductive JSDate where
  | ofString (s : String)
  | atTime (t : Nat)
deriving DecidableEq

structure TwitterUser where
  userId : String
  username : String
  displayName : Option String
  avatarUrl : String
  isVerified : Bool
  isBlueVerified : Bool
deriving DecidableEq

structure TwitterMedia where
  mediaType : String
  url : String
  thumbnailUrl : Option String
deriving DecidableEq

structure PostMetrics where
  likesCount : Option ℚ
  retweetsCount : Option ℚ
  quotesCount : Option ℚ
  repliesCount : Option ℚ
  impressionsCount : Option ℚ
  bookmarksCount : Option ℚ
deriving DecidableEq

/-- The three-field object literal built for `retweetedFrom` in
`extractPostFromElement` (the TS type says `TwitterUser`, but the runtime
value carries exactly these fields). -/
structure RetweetFrom where
  userId : String
  username : String
  displayName : String
deriving DecidableEq

structure TwitterPost where
  postId : String
  author : TwitterUser
  content : Option String
  timestamp : JSDate
  media : List TwitterMedia
  metrics : PostMetrics
  engagementRate : Option ℚ
  isRetweet : Bool
  retweetedFrom : Option RetweetFrom
  url : String
deriving DecidableEq

/-! ### Element model for `extractPostFromElement`
(`src/src/scrapers/post-scraper.ts`)

One rendered `article[data-testid="tweet"]` is modelled by the results of
every DOM query the extractor performs on it.  `Option (Option String)`
reads: outer `Option` = was the sub-element found, inner `Option` = the
attribute / `textContent` value (`none` = JS `null`). -/

structure SocialContext where
  text : Option String
  linkEl : Option (Option String × Option String)
deriving DecidableEq

structure TweetElem where
  statusLinkHref : Option (Option String)
  userNameLinkHref : Option (Option String)
  userNameSpanText : Option (Option String)
  avatarSrc : Option String
  verifiedBadge : Bool
  blueVerifiedBadge : Bool
  tweetTextEl : Option (Option String)
  timeDatetime : Option (Option String)
  photoImgSrcs : List (Option String)
  videoEls : List (Option String × Option String)
  replyText : Option (Option String)
  retweetText : Option (Option String)
  likeText : Option (Option String)
  viewsText : Option (Option String)
  bookmarkText : Option (Option String)
  socialContext : Option SocialContext
deriving DecidableEq

/-- An element with every query empty; concrete elements override fields. -/
def emptyElem : TweetElem where
  statusLinkHref := none
  userNameLinkHref := none
  userNameSpanText := none
  avatarSrc := none
  verifiedBadge := false
  blueVerifiedBadge := false
  tweetTextEl := none
  timeDatetime := none
  photoImgSrcs := []
  videoEls := []
  replyText := none
  retweetText := none
  likeText := none
  viewsText := none
  bookmarkText := none
  socialContext := none

/-- `extractUserFromElement` (`scripts/twitter/scrapers/utils.ts`): every
lookup degrades to a default on failure via `.catch`; `href.replace('/','')`
removes the first slash. -/
def extractUserFromElement (e : TweetElem) : TwitterUser :=
  let username : String :=
    match e.userNameLinkHref with
    | some (some h) => String.mk (removeFirstChar '/' h.data)
    | some none => ("")
    | none => ("")
  { userId := username
    username := username
    displayName :=
      match e.userNameSpanText with
      | some t => t
      | none => some ("")
    avatarUrl := e.avatarSrc.getD ("")
    isVerified := e.verifiedBadge
    isBlueVerified := e.blueVerifiedBadge }

/-- Replace the first regex match of `&name=\w+` by `&name=large`
(`src.replace(/&name=\w+/, '&name=large')`). -/
def replaceNameLarge : List Char → List Char
  | [] => []
  | c :: rest =>
    if c = '&' ∧ (("name=").data.isPrefixOf rest) ∧
        ((rest.drop 5).head?.elim false (fun d => d.isAlphanum ∨ d = '_')) then
      ("&name=large").data ++
        (rest.drop 5).dropWhile (fun d => d.isAlphanum ∨ d = '_')
    else c :: replaceNameLarge rest

/-- `extractMediaFromElement` (`scripts/twitter/scrapers/utils.ts`):
images first, then videos; falsy `src` (null or empty) skips the entry;
`poster || undefined` collapses a falsy poster. -/
def extractMediaFromElement (e : TweetElem) : List TwitterMedia :=
  (e.photoImgSrcs.filterMap fun src? =>
    match src? with
    | some src =>
      if src = ("") then none
      else some { mediaType := ("image")
                  url := String.mk (replaceNameLarge src.data)
                  thumbnailUrl := none }
    | none => none) ++
  (e.videoEls.filterMap fun v =>
    match v.1 with
    | some src =>
      if src = ("") then none
      else some { mediaType := ("video")
                  url := src
                  thumbnailUrl :=
                    match v.2 with
                    | some p => if p = ("") then none else some p
                    | none => none }
    | none => none)

/-- `extractMetricsFromElement` (`src/src/scrapers/post-scraper.ts`): every
count starts at `0`; a present button contributes
`parseCount(text || '0')`. -/
def extractMetricsFromElement (e : TweetElem) : PostMetrics :=
  let get : Option (Option String) → Option ℚ := fun o =>
    match o with
    | some (some s) => if s = ("") then parseCount ("0") else parseCount s
    | some none => parseCount ("0")
    | none => some 0
  { likesCount := get e.likeText
    retweetsCount := get e.retweetText
    quotesCount := some 0
    repliesCount := get e.replyText
    impressionsCount := get e.viewsText
    bookmarksCount := get e.bookmarkText }

/-- First match of `/\/status\/(\d+)/` in a string: the digit group. -/
def findStatusId : List Char → Option (List Char)
  | [] => none
  | c :: rest =>
    if (("/status/").data.isPrefixOf (c :: rest)) ∧
        (((c :: rest).drop 8).head?.elim false (fun d => d.isDigit)) then
      some (((c :: rest).drop 8).takeWhile (fun d => d.isDigit))
    else findStatusId rest

/-- `extractPostFromElement` (`src/src/scrapers/post-scraper.ts` 70-151).
`now` is the ambient clock used by the two `new Date()` fallbacks. -/
def extractPostFromElement (e : TweetElem) (now : Nat) : Option TwitterPost :=
  match e.statusLinkHref with
  | none => none
  | some none => none
  | some (some href) =>
    if href = ("") then none
    else
      match findStatusId href.data with
      | none => none
      | some idChars =>
        let metrics := extractMetricsFromElement e
        some
          { postId := String.mk idChars
            author := extractUserFromElement e
            content :=
              match e.tweetTextEl with
              | some t => t
              | none => some ("")
            timestamp :=
              match e.timeDatetime with
              | some (some d) =>
                if d = ("") then JSDate.atTime now else JSDate.ofString d
              | _ => JSDate.atTime now
            media := extractMediaFromElement e
            metrics := metrics
            engagementRate :=
              calculateEngagementRate metrics.likesCount
                metrics.retweetsCount metrics.repliesCount
                metrics.impressionsCount
            isRetweet := e.socialContext.isSome
            retweetedFrom :=
              match e.socialContext with
              | none => none
              | some sc =>
                match sc.text with
                | some t =>
                  if containsSub t.data (("reposted").data) then
                    match sc.linkEl with
                    | some (hrefA, nameA) =>
                      match hrefA with
                      | some ha =>
                        if ha = ("") then none
                        else
                          some { userId := String.mk
                                   (removeFirstChar '/' ha.data)
                                 username := String.mk
                                   (removeFirstChar '/' ha.data)
                                 displayName := nameA.getD ("") }
                      | none => none
                    | none => none
                  else none
                | none => none
            url := ("https://x.com") ++ href }

/-- The identity check sequence of `extractPostFromElement`: the post id
when the element carries a parseable identity. -/
def postIdentity (e : TweetElem) : Option String :=
  match e.statusLinkHref with
  | some (some h) =>
    if h = ("") then none else (findStatusId h.data).map String.mk
  | _ => none

/-! ### Pagination engine (`scrapePosts`, `src/src/scrapers/post-scraper.ts`)

The loop depends on a rendered element only through the pair
(`isAdElement` result, `extractPostFromElement` result, exceptions being
caught per element), so a feed snapshot is a list of these outcomes. -/

/-- Outcome of processing one rendered `article` element inside the loop:
skipped as an ad, an exception caught by the per-element `try`, extractor
returned `null`, or extractor returned a post. -/
inductive ElemOutcome where
  | ad
  | err
  | noPost
  | post (p : TwitterPost)
deriving DecidableEq

/-- `ScrapeOptions` (`scripts/twitter/types.ts`); defaults in the source
are `maxPosts = 10`, `scrollTimeout = 30000`, `waitBetweenScrolls = 2000`. -/
structure ScrapeOptions where
  maxPosts : Nat
  scrollTimeout : Nat
  waitBetweenScrolls : Nat
deriving DecidableEq

/-- The inner `for` loop of `scrapePosts` over one snapshot of rendered
elements: `break` once `maxPosts` is reached, skip ads / errors / `null`
extractions / already-seen identities, otherwise append and record. -/
def collectCycle (max : Nat) :
    List ElemOutcome → List TwitterPost × List String →
    List TwitterPost × List String
  | [], st => st
  | e :: rest, (posts, seen) =>
    if max ≤ posts.length then (posts, seen)
    else
      match e with
      | .post p =>
        if p.postId ∈ seen then collectCycle max rest (posts, seen)
        else collectCycle max rest (posts ++ [p], p.postId :: seen)
      | _ => collectCycle max rest (posts, seen)

/-- The `while` loop of `scrapePosts`.  `feed k` is the snapshot that
`page.$$('article[data-testid="tweet"]')` returns in cycle `k`; `clock k`
is `Date.now() - startTime` at the loop-head check of cycle `k`.  `fuel`
is an upper bound on iterations (realised below: the wall clock advances
at least 1ms per cycle, so `scrollTimeout + 1` cycles always suffice). -/
def scrapePostsGo (feed : Nat → List ElemOutcome) (clock : Nat → Nat)
    (maxPosts scrollTimeout : Nat) :
    Nat → Nat → List TwitterPost × List String → List TwitterPost
  | 0, _, st => st.1
  | fuel + 1, k, st =>
    if st.1.length < maxPosts ∧ clock k < scrollTimeout then
      scrapePostsGo feed clock maxPosts scrollTimeout fuel (k + 1)
        (collectCycle maxPosts (feed k) st)
    else st.1

/-- `scrapePosts` (`src/src/scrapers/post-scraper.ts` 17-65). -/
def scrapePosts (feed : Nat → List ElemOutcome) (clock : Nat → Nat)
    (opts : ScrapeOptions) : List TwitterPost :=
  scrapePostsGo feed clock opts.maxPosts opts.scrollTimeout
    (opts.scrollTimeout + 1) 0 ([], [])

/-- Loop state at the head of cycle `k` (it is frozen by `collectCycle`
once the target count is reached). -/
def pagState (feed : Nat → List ElemOutcome) (max : Nat) :
    Nat → List TwitterPost × List String
  | 0 => ([], [])
  | k + 1 => collectCycle max (feed k) (pagState feed max k)

/-- Reference first-seen deduplication of an element stream (no count
bound): the order-preserving list of posts with identities not in `seen`
and not previously emitted. -/
def firstSeenPosts (seen : List String) : List ElemOutcome → List TwitterPost
  | [] => []
  | .post p :: rest =>
    if p.postId ∈ seen then firstSeenPosts seen rest
    else p :: firstSeenPosts (p.postId :: seen) rest
  | .ad :: rest => firstSeenPosts seen rest
  | .err :: rest => firstSeenPosts seen rest
  | .noPost :: rest => firstSeenPosts seen rest

/-- The seen-set after first-seen processing of a stream. -/
def seenAfter (seen : List String) : List ElemOutcome → List String
  | [] => seen
  | .post p :: rest =>
    if p.postId ∈ seen then seenAfter seen rest
    else seenAfter (p.postId :: seen) rest
  | .ad :: rest => seenAfter seen rest
  | .err :: rest => seenAfter seen rest
  | .noPost :: rest => seenAfter seen rest

/-- Concatenation of the first `k` feed snapshots. -/
def feedUpTo (feed : Nat → List ElemOutcome) : Nat → List ElemOutcome
  | 0 => []
  | k + 1 => feedUpTo feed k ++ feed k

/-! ### Comment scraper (`scrapeComments`,
`src/src/scrapers/search-scraper.ts` 231-262, and the structurally
identical loop in `scripts/twitter/scrapers/comment-scraper.ts` 41-67):
same engine, but the inner loop starts at index 1
(`for (let i = 1; i < replyElements.length; i++)`). -/

/-- One collection cycle of `scrapeComments`: the element at index 0 is
never processed. -/
def commentCycle (max : Nat) (elems : List ElemOutcome)
    (st : List TwitterPost × List String) :
    List TwitterPost × List String :=
  collectCycle max (elems.drop 1) st

/-- The `while` loop of `scrapeComments`. -/
def scrapeCommentsGo (feed : Nat → List ElemOutcome) (clock : Nat → Nat)
    (maxComments scrollTimeout : Nat) :
    Nat → Nat → List TwitterPost × List String → List TwitterPost
  | 0, _, st => st.1
  | fuel + 1, k, st =>
    if st.1.length < maxComments ∧ clock k < scrollTimeout then
      scrapeCommentsGo feed clock maxComments scrollTimeout fuel (k + 1)
        (commentCycle maxComments (feed k) st)
    else st.1

/-- `scrapeComments`: `maxPosts` is destructured as `maxComments`. -/
def scrapeComments (feed : Nat → List ElemOutcome) (clock : Nat → Nat)
    (opts : ScrapeOptions) : List TwitterPost :=
  scrapeCommentsGo feed clock opts.maxPosts opts.scrollTimeout
    (opts.scrollTimeout + 1) 0 ([], [])

/-- The identity an element outcome would contribute. -/
def elemIdOf : ElemOutcome → Option String
  | .post p => some p.postId
  | _ => none

/-! ### Feed monitor (`monitorTimeline`,
`src/src/scrapers/timeline-scraper.ts` 97-144) -/

/-- `seenPostIds.add(post.postId)` folded over a list of posts
(`Set.add`: duplicates collapse). -/
def addSeenIds (seen : List String) (posts : List TwitterPost) :
    List String :=
  posts.foldl (fun s p => if p.postId ∈ s then s else p.postId :: s) seen

/-- The body of one monitoring tick, given the scrape result `posts` of
this tick: the new posts are the current run filtered against the
persistent seen set; the callback payload is `some` exactly when the
filter is non-empty, in which case the new identities are added first. -/
def monitorTick (seen : List String) (posts : List TwitterPost) :
    List String × Option (List TwitterPost) :=
  let newPosts := posts.filter (fun p => decide (¬ p.postId ∈ seen))
  if 0 < newPosts.length then (addSeenIds seen newPosts, some newPosts)
  else (seen, none)

/-- The whole monitor: the initial scrape only seeds the seen set; each
tick is processed by `monitorTick`; emitted payloads are collected in
order. -/
def monitorRun (initial : List TwitterPost)
    (ticks : List (List TwitterPost)) :
    List String × List (List TwitterPost) :=
  ticks.foldl
    (fun st posts =>
      let r := monitorTick st.1 posts
      (r.1, st.2 ++ r.2.toList))
    (addSeenIds [] initial, [])

/-! ### Monitor error handling (`monitorTimeline`, the `try`/`catch`
inside the `while (isMonitoring)` loop, lines 110-135) -/

/-- Failure modes of one tick: `reloadOk = false` models `page.reload()`
(or `waitForTwitterReady`) throwing, `scraped = none` models
`scrapeTimeline` throwing, `callbackThrows` models the user callback
raising when invoked. -/
structure TickInput where
  reloadOk : Bool
  scraped : Option (List TwitterPost)
  callbackThrows : Bool
deriving DecidableEq

/-- Observable result of one tick: final seen set, whether the callback
was invoked, whether an error was caught by the tick's `catch`, and
whether the `waitForTimeout(checkInterval)` at the end of the `try` block
was reached. -/
structure TickResult where
  seen : List String
  callbackInvoked : Bool
  errorCaught : Bool
  waited : Bool
deriving DecidableEq

/-- One iteration of the monitoring loop with its `try`/`catch`.  Note the
order inside the `try`: identities are added to the seen set *before* the
callback is invoked, and the inter-tick delay is the last statement of the
`try` block. -/
def monitorTickE (seen : List String) (t : TickInput) : TickResult :=
  if ¬ t.reloadOk then ⟨seen, false, true, false⟩
  else
    match t.scraped with
    | none => ⟨seen, false, true, false⟩
    | some posts =>
      let newPosts := posts.filter (fun p => decide (¬ p.postId ∈ seen))
      if 0 < newPosts.length then
        let seen2 := addSeenIds seen newPosts
        if t.callbackThrows then ⟨seen2, true, true, false⟩
        else ⟨seen2, true, false, true⟩
      else ⟨seen, false, false, true⟩

/-- The loop processes every tick until the stop flag ends the list: an
error in a tick never terminates monitoring. -/
def monitorLoopE (seen : List String) : List TickInput → List String
  | [] => seen
  | t :: ts => monitorLoopE (monitorTickE seen t).seen ts

/-! ### Login flow, `Submitting` step (`doLogin`,
`src/src/behaviors/login.ts` 494-529) -/

/-- What actually happens after the log-in control is activated:
whether some login-button selector click succeeded, whether the page
navigates to `https://x.com/home` within the 30s `waitForURL`, and the
URL the page is on when that wait times out. -/
structure SubmitEnv where
  loginClicked : Bool
  navigatesToHome : Bool
  finalUrl : String
deriving DecidableEq

inductive SubmitOutcome where
  | authenticated
  | clickFailed
  | loginFailed (url : String)
deriving DecidableEq

/-- JS `url.includes(pat)`. -/
def urlContains (url pat : String) : Bool :=
  containsSub url.data pat.data

/-- The `Submitting` step: click the log-in control, wait for navigation
to `https://x.com/home`; on timeout, throw only when the current URL
contains neither `'/home'` nor `'x.com'`. -/
def submittingState (env : SubmitEnv) : SubmitOutcome :=
  if ¬ env.loginClicked then .clickFailed
  else if env.navigatesToHome then .authenticated
  else if ¬ (urlContains env.finalUrl ("/home")) ∧
      ¬ (urlContains env.finalUrl ("x.com")) then
    .loginFailed env.finalUrl
  else .authenticated

/-! ### Login flow, `EnteringPassword` step (`doLogin`,
`src/src/behaviors/login.ts` 350-489) -/

/-- One `input` element on the page, as inspected by the password-field
strategies. -/
structure PwInput where
  visible : Bool
  itype : Option String
  placeholder : Option String
  iname : Option String
  autocomplete : Option String
deriving DecidableEq

/-- The dynamic-scan heuristic (`type === 'password' ||
placeholder?.toLowerCase().includes('password') || name?.toLowerCase()
.includes('password') || autocomplete?.includes('password')`). -/
def pwHeuristic (i : PwInput) : Bool :=
  i.itype = some ("password")
  || (i.placeholder.elim false fun p =>
        containsSub (p.data.map jsToLowerChar) (("password").data))
  || (i.iname.elim false fun n =>
        containsSub (n.data.map jsToLowerChar) (("password").data))
  || (i.autocomplete.elim false fun a =>
        containsSub a.data (("password").data))

/-- The document state the password strategies inspect: all `input`
elements in order, whether each selector of `passwordSelectors` resolves
to a visible element in time, and the password-typed inputs found in each
iframe. -/
structure PwEnv where
  docInputs : List PwInput
  selectorHits : List Bool
  iframePwInputs : List (List PwInput)
  /-- The dynamic scan runs inside a `try`/`catch`; `false` models a thrown
  error aborting it before the field is filled (the raw scan at the end is
  only reachable this way, since its `input[type="password"]` criterion is
  subsumed by the dynamic scan's heuristic). -/
  dynScanOk : Bool
deriving DecidableEq

/-- Which strategy filled the field. -/
inductive PwFill where
  | dynamicScan
  | selectorChain
  | iframeScan
  | rawScan
deriving DecidableEq

/-- Field-value semantics: select-all + delete, then `type` appends to the
(now empty) value; `fill` replaces the value outright. -/
def clearThenType (pw : String) : String → String := fun _ => ("") ++ pw

/-- Playwright `fill`: replaces the field value. -/
def fillValue (pw : String) : String → String := fun _ => pw

/-- The `EnteringPassword` strategy cascade, in source order: (1) dynamic
scan over all visible inputs with the password heuristic (clear, then
type); (2) the `passwordSelectors` locator chain (clear, then type);
(3) password inputs inside iframes (`fill`); (4) last resort: raw
full-document scan over `input[type="password"]` (`fill`); exhausting all
four throws.  The returned function maps the field's prefilled value to
its final value. -/
def enteringPassword (env : PwEnv) (pw : String) :
    Except String (PwFill × (String → String)) :=
  match (if env.dynScanOk then
      env.docInputs.find? (fun i => i.visible && pwHeuristic i)
    else none) with
  | some _ => .ok (.dynamicScan, clearThenType pw)
  | none =>
    if env.selectorHits.any (fun b => b) then
      .ok (.selectorChain, clearThenType pw)
    else
      match env.iframePwInputs.find? (fun l => l.any (fun i => i.visible))
        with
      | some _ => .ok (.iframeScan, fillValue pw)
      | none =>
        match env.docInputs.find?
            (fun i => i.itype = some ("password") && i.visible) with
        | some _ => .ok (.rawScan, fillValue pw)
        | none => .error ("Failed to fill password field")

/-- A plain post record with the given identity, used for concrete runs of
the pagination and monitoring loops. -/
def mkPost (id : String) : TwitterPost where
  postId := id
  author := ⟨(""), (""), some (""), (""), false, false⟩
  content := some ("")
  timestamp := JSDate.atTime 0
  media := []
  metrics := ⟨some 0, some 0, some 0, some 0, some 0, some 0⟩
  engagementRate := some 0
  isRetweet := false
  retweetedFrom := none
  url := ("")

/-! ### Lemmas about one collection cycle -/

theorem collectCycle_of_le (max : Nat) (elems : List ElemOutcome)
    (posts : List TwitterPost) (seen : List String)
    (h : max ≤ posts.length) :
    collectCycle max elems (posts, seen) = (posts, seen) := by
  cases elems with
  | nil => rfl
  | cons e rest => simp [collectCycle, if_pos h]

theorem collectCycle_fst (max : Nat) (elems : List ElemOutcome) :
    ∀ posts seen, (collectCycle max elems (posts, seen)).1 =
      posts ++ (firstSeenPosts seen elems).take (max - posts.length) := by
  induction elems with
  | nil => intro posts seen; simp [collectCycle, firstSeenPosts]
  | cons e rest ih =>
    intro posts seen
    by_cases h : max ≤ posts.length
    · have hz : max - posts.length = 0 := Nat.sub_eq_zero_of_le h
      simp [collectCycle, if_pos h, hz]
    · have hlt : posts.length < max := Nat.lt_of_not_le h
      have hpos : 0 < max - posts.length := Nat.sub_pos_of_lt hlt
      cases e with
      | post p =>
        by_cases hp : p.postId ∈ seen
        · simp [collectCycle, if_neg h, hp, firstSeenPosts, ih]
        · have hsub : max - (posts.length + 1) = (max - posts.length) - 1 := by
            omega
          have htake : (p :: firstSeenPosts (p.postId :: seen) rest).take
              (max - posts.length) =
              p :: (firstSeenPosts (p.postId :: seen) rest).take
                ((max - posts.length) - 1) := by
            obtain ⟨n, hn⟩ : ∃ n, max - posts.length = n + 1 :=
              ⟨max - posts.length - 1, by omega⟩
            rw [hn]; simp
          simp only [collectCycle, if_neg h, hp, ite_false, firstSeenPosts,
            ih, List.length_append, List.length_cons, List.length_nil]
          simp [hp, htake, hsub]
      | ad => simp [collectCycle, if_neg h, firstSeenPosts, ih]
      | err => simp [collectCycle, if_neg h, firstSeenPosts, ih]
      | noPost => simp [collectCycle, if_neg h, firstSeenPosts, ih]

theorem collectCycle_snd (max : Nat) (elems : List ElemOutcome) :
    ∀ posts seen,
      posts.length + (firstSeenPosts seen elems).length < max →
      (collectCycle max elems (posts, seen)).2 = seenAfter seen elems := by
  induction elems with
  | nil => intro posts seen _; rfl
  | cons e rest ih =>
    intro posts seen hsum
    have h : ¬ max ≤ posts.length := by
      intro hle
      have : posts.length ≤ posts.length +
          (firstSeenPosts seen (e :: rest)).length := Nat.le_add_right _ _
      omega
    cases e with
    | post p =>
      by_cases hp : p.postId ∈ seen
      · have hs : firstSeenPosts seen (ElemOutcome.post p :: rest) =
            firstSeenPosts seen rest := by simp [firstSeenPosts, hp]
        rw [hs] at hsum
        simp [collectCycle, if_neg h, hp, seenAfter, ih _ _ hsum]
      · have hs : (firstSeenPosts seen (ElemOutcome.post p :: rest)).length =
            (firstSeenPosts (p.postId :: seen) rest).length + 1 := by
          simp [firstSeenPosts, hp]
        have hsum2 : (posts ++ [p]).length +
            (firstSeenPosts (p.postId :: seen) rest).length < max := by
          simp only [List.length_append, List.length_cons, List.length_nil]
          omega
        simp [collectCycle, if_neg h, hp, seenAfter, ih _ _ hsum2]
    | ad =>
      have hs : firstSeenPosts seen (ElemOutcome.ad :: rest) =
          firstSeenPosts seen rest := by simp [firstSeenPosts]
      rw [hs] at hsum
      simp [collectCycle, if_neg h, seenAfter, ih _ _ hsum]
    | err =>
      have hs : firstSeenPosts seen (ElemOutcome.err :: rest) =
          firstSeenPosts seen rest := by simp [firstSeenPosts]
      rw [hs] at hsum
      simp [collectCycle, if_neg h, seenAfter, ih _ _ hsum]
    | noPost =>
      have hs : firstSeenPosts seen (ElemOutcome.noPost :: rest) =
          firstSeenPosts seen rest := by simp [firstSeenPosts]
      rw [hs] at hsum
      simp [collectCycle, if_neg h, seenAfter, ih _ _ hsum]

theorem collectCycle_length (max : Nat) (elems : List ElemOutcome) :
    ∀ posts seen, (collectCycle max elems (posts, seen)).1.length ≤
      posts.length + elems.length := by
  induction elems with
  | nil => intro posts seen; simp [collectCycle]
  | cons e rest ih =>
    intro posts seen
    by_cases h : max ≤ posts.length
    · rw [collectCycle_of_le _ _ _ _ h]
      show posts.length ≤ posts.length + (e :: rest).length
      omega
    · cases e with
      | post p =>
        by_cases hp : p.postId ∈ seen
        · simp only [collectCycle, if_neg h, hp, ite_true, List.length_cons]
          have := ih posts seen; omega
        · simp only [collectCycle, if_neg h, hp, ite_false, List.length_cons]
          have := ih (posts ++ [p]) (p.postId :: seen)
          simp only [List.length_append, List.length_cons,
            List.length_nil] at this
          omega
      | ad =>
        simp only [collectCycle, if_neg h, List.length_cons]
        have := ih posts seen; omega
      | err =>
        simp only [collectCycle, if_neg h, List.length_cons]
        have := ih posts seen; omega
      | noPost =>
        simp only [collectCycle, if_neg h, List.length_cons]
        have := ih posts seen; omega

theorem mem_collectCycle (max : Nat) (elems : List ElemOutcome) :
    ∀ posts seen p, p ∈ (collectCycle max elems (posts, seen)).1 →
      p ∈ posts ∨ ElemOutcome.post p ∈ elems := by
  induction elems with
  | nil => intro posts seen p hp; exact Or.inl hp
  | cons e rest ih =>
    intro posts seen p hp
    by_cases h : max ≤ posts.length
    · rw [collectCycle_of_le _ _ _ _ h] at hp; exact Or.inl hp
    · cases e with
      | post q =>
        by_cases hq : q.postId ∈ seen
        · simp only [collectCycle, if_neg h, hq, ite_true] at hp
          rcases ih _ _ _ hp with h1 | h1
          · exact Or.inl h1
          · exact Or.inr (List.mem_cons_of_mem _ h1)
        · simp only [collectCycle, if_neg h, hq, ite_false] at hp
          rcases ih _ _ _ hp with h1 | h1
          · rcases List.mem_append.mp h1 with h2 | h2
            · exact Or.inl h2
            · rcases List.mem_singleton.mp h2 with rfl
              exact Or.inr (List.mem_cons_self _ _)
          · exact Or.inr (List.mem_cons_of_mem _ h1)
      | ad =>
        simp only [collectCycle, if_neg h] at hp
        rcases ih _ _ _ hp with h1 | h1
        · exact Or.inl h1
        · exact Or.inr (List.mem_cons_of_mem _ h1)
      | err =>
        simp only [collectCycle, if_neg h] at hp
        rcases ih _ _ _ hp with h1 | h1
        · exact Or.inl h1
        · exact Or.inr (List.mem_cons_of_mem _ h1)
      | noPost =>
        simp only [collectCycle, if_neg h] at hp
        rcases ih _ _ _ hp with h1 | h1
        · exact Or.inl h1
        · exact Or.inr (List.mem_cons_of_mem _ h1)

/-! ### Lemmas about the first-seen reference stream -/

theorem firstSeenPosts_append (a : List ElemOutcome) :
    ∀ seen b, firstSeenPosts seen (a ++ b) =
      firstSeenPosts seen a ++ firstSeenPosts (seenAfter seen a) b := by
  induction a with
  | nil => intro seen b; simp [firstSeenPosts, seenAfter]
  | cons e rest ih =>
    intro seen b
    cases e with
    | post p =>
      by_cases hp : p.postId ∈ seen
      · simp [firstSeenPosts, seenAfter, hp, ih]
      · simp [firstSeenPosts, seenAfter, hp, ih]
    | ad => simp [firstSeenPosts, seenAfter, ih]
    | err => simp [firstSeenPosts, seenAfter, ih]
    | noPost => simp [firstSeenPosts, seenAfter, ih]

theorem seenAfter_append (a : List ElemOutcome) :
    ∀ seen b, seenAfter seen (a ++ b) = seenAfter (seenAfter seen a) b := by
  induction a with
  | nil => intro seen b; simp [seenAfter]
  | cons e rest ih =>
    intro seen b
    cases e with
    | post p =>
      by_cases hp : p.postId ∈ seen
      · simp [seenAfter, hp, ih]
      · simp [seenAfter, hp, ih]
    | ad => simp [seenAfter, ih]
    | err => simp [seenAfter, ih]
    | noPost => simp [seenAfter, ih]

theorem firstSeenPosts_ids (elems : List ElemOutcome) :
    ∀ seen, ((firstSeenPosts seen elems).map TwitterPost.postId).Nodup
      ∧ ∀ p ∈ firstSeenPosts seen elems, ¬ p.postId ∈ seen := by
  induction elems with
  | nil => intro seen; simp [firstSeenPosts]
  | cons e rest ih =>
    intro seen
    cases e with
    | post p =>
      by_cases hp : p.postId ∈ seen
      · simpa [firstSeenPosts, hp] using ih seen
      · obtain ⟨hn, hm⟩ := ih (p.postId :: seen)
        refine ⟨?_, ?_⟩
        · simp only [firstSeenPosts, hp, ite_false, List.map_cons,
            List.nodup_cons]
          refine ⟨?_, hn⟩
          intro hmem
          rcases List.mem_map.mp hmem with ⟨q, hq, hid⟩
          exact (hm q hq) (by rw [hid]; exact List.mem_cons_self _ _)
        · intro q hq
          simp only [firstSeenPosts, hp, ite_false, List.mem_cons] at hq
          rcases hq with rfl | hq
          · exact hp
          · exact fun hin => (hm q hq) (List.mem_cons_of_mem _ hin)
    | ad => simpa [firstSeenPosts] using ih seen
    | err => simpa [firstSeenPosts] using ih seen
    | noPost => simpa [firstSeenPosts] using ih seen

theorem firstSeenPosts_length_mono (feed : Nat → List ElemOutcome)
    {j k : Nat} (h : j ≤ k) :
    (firstSeenPosts [] (feedUpTo feed j)).length ≤
      (firstSeenPosts [] (feedUpTo feed k)).length := by
  induction k with
  | zero => cases Nat.le_zero.mp h; exact Nat.le_refl _
  | succ k ih =>
    rcases Nat.lt_or_ge j (k + 1) with hlt | hge
    · have hj : j ≤ k := Nat.lt_succ_iff.mp hlt
      refine Nat.le_trans (ih hj) ?_
      show _ ≤ (firstSeenPosts [] (feedUpTo feed k ++ feed k)).length
      rw [firstSeenPosts_append]
      simp
    · have : j = k + 1 := Nat.le_antisymm h hge
      subst this; exact Nat.le_refl _

/-! ### Characterisation of the pagination loop state -/

theorem pagState_spec (feed : Nat → List ElemOutcome) (max : Nat) :
    ∀ k, (pagState feed max k).1 =
        (firstSeenPosts [] (feedUpTo feed k)).take max
      ∧ ((firstSeenPosts [] (feedUpTo feed k)).length < max →
          (pagState feed max k).2 = seenAfter [] (feedUpTo feed k)) := by
  intro k
  induction k with
  | zero =>
    refine ⟨?_, fun _ => rfl⟩
    show ([] : List TwitterPost) = List.take max (firstSeenPosts [] [])
    simp [firstSeenPosts]
  | succ k ih =>
    obtain ⟨ih1, ih2⟩ := ih
    by_cases hlt : (firstSeenPosts [] (feedUpTo feed k)).length < max
    · have hfst : (pagState feed max k).1 =
          firstSeenPosts [] (feedUpTo feed k) := by
        rw [ih1]; exact List.take_of_length_le (Nat.le_of_lt hlt)
      have hsnd := ih2 hlt
      have hpair : pagState feed max k =
          (firstSeenPosts [] (feedUpTo feed k),
           seenAfter [] (feedUpTo feed k)) := by
        rw [← hfst, ← hsnd]
      constructor
      · show (collectCycle max (feed k) (pagState feed max k)).1 = _
        rw [hpair, collectCycle_fst]
        show firstSeenPosts [] (feedUpTo feed k) ++ _ =
          (firstSeenPosts [] (feedUpTo feed k ++ feed k)).take max
        rw [firstSeenPosts_append, List.take_append_eq_append_take,
          List.take_of_length_le (Nat.le_of_lt hlt)]
      · intro hlen2
        show (collectCycle max (feed k) (pagState feed max k)).2 = _
        rw [hpair]
        have hsum : (firstSeenPosts [] (feedUpTo feed k)).length +
            (firstSeenPosts (seenAfter [] (feedUpTo feed k))
              (feed k)).length < max := by
          have : (firstSeenPosts [] (feedUpTo feed (k + 1))).length =
              (firstSeenPosts [] (feedUpTo feed k)).length +
              (firstSeenPosts (seenAfter [] (feedUpTo feed k))
                (feed k)).length := by
            show (firstSeenPosts [] (feedUpTo feed k ++ feed k)).length = _
            rw [firstSeenPosts_append]; simp
          omega
        rw [collectCycle_snd _ _ _ _ hsum]
        show _ = seenAfter [] (feedUpTo feed k ++ feed k)
        rw [seenAfter_append]
    · have hge : max ≤ (firstSeenPosts [] (feedUpTo feed k)).length :=
        Nat.le_of_not_lt hlt
      have hlen : (pagState feed max k).1.length = max := by
        rw [ih1, List.length_take]; omega
      constructor
      · show (collectCycle max (feed k) (pagState feed max k)).1 = _
        rw [← Prod.mk.eta (p := pagState feed max k),
          collectCycle_of_le _ _ _ _ (Nat.le_of_eq hlen.symm)]
        show (pagState feed max k).1 = _
        rw [ih1]
        show _ = (firstSeenPosts [] (feedUpTo feed k ++ feed k)).take max
        rw [firstSeenPosts_append, List.take_append_eq_append_take,
          Nat.sub_eq_zero_of_le hge, List.take_zero, List.append_nil]
      · intro hlen2
        exfalso
        have hmon := firstSeenPosts_length_mono feed (Nat.le_succ k)
        simp only [Nat.succ_eq_add_one] at hmon
        omega

/-! ### Exit analysis of the pagination while-loop -/

theorem scrapePostsGo_spec (feed : Nat → List ElemOutcome)
    (clock : Nat → Nat) (max T : Nat) (hk : ∀ j, j ≤ clock j) :
    ∀ fuel k, T < k + fuel →
      ∃ m, k ≤ m
        ∧ scrapePostsGo feed clock max T fuel k (pagState feed max k) =
            (pagState feed max m).1
        ∧ (max ≤ (pagState feed max m).1.length ∨ T ≤ clock m)
        ∧ ∀ j, k ≤ j → j < m →
            (pagState feed max j).1.length < max ∧ clock j < T := by
  intro fuel
  induction fuel with
  | zero =>
    intro k hT
    refine ⟨k, Nat.le_refl _, rfl, Or.inr ?_, fun j h1 h2 => absurd h2 (by omega)⟩
    exact Nat.le_trans (by omega) (hk k)
  | succ fuel ih =>
    intro k hT
    by_cases hrun : (pagState feed max k).1.length < max ∧ clock k < T
    · have hstep : scrapePostsGo feed clock max T (fuel + 1) k
          (pagState feed max k) =
          scrapePostsGo feed clock max T fuel (k + 1)
            (pagState feed max (k + 1)) := by
        show (if (pagState feed max k).1.length < max ∧ clock k < T then _
          else _) = _
        rw [if_pos hrun]
        show scrapePostsGo feed clock max T fuel (k + 1)
            (collectCycle max (feed k) (pagState feed max k)) = _
        rfl
      obtain ⟨m, hm1, hm2, hm3, hm4⟩ := ih (k + 1) (by omega)
      refine ⟨m, by omega, ?_, hm3, ?_⟩
      · rw [hstep, hm2]
      · intro j h1 h2
        rcases Nat.eq_or_lt_of_le h1 with rfl | hj
        · exact hrun
        · exact hm4 j hj h2
    · refine ⟨k, Nat.le_refl _, ?_, ?_, fun j h1 h2 => absurd h2 (by omega)⟩
      · show (if (pagState feed max k).1.length < max ∧ clock k < T then _
          else (pagState feed max k).1) = _
        rw [if_neg hrun]
      · rcases Nat.lt_or_ge (pagState feed max k).1.length max with h1 | h1
        · rcases Nat.lt_or_ge (clock k) T with h2 | h2
          · exact absurd ⟨h1, h2⟩ hrun
          · exact Or.inr h2
        · exact Or.inl h1

/-- C1: for a ScrapeBudget with `targetCount = maxPosts`, a pagination run
over a feed that renders at least `maxPosts` unique identities within the
wall-clock budget terminates with exactly `maxPosts` records, all
identities distinct, in first-seen order (the run equals the first-seen
deduplication of everything rendered up to the exit cycle, truncated at
the target); and the loop exits at the first cycle `K` at which either
the target count has been collected or the wall-clock timeout has
elapsed, whichever happens first.  `hk`/`hmono` say the wall clock
advances by at least 1ms per cycle and never runs backwards. -/
theorem C1_pagination_budget (feed : Nat → List ElemOutcome)
    (clock : Nat → Nat) (opts : ScrapeOptions)
    (hk : ∀ j, j ≤ clock j)
    (hmono : ∀ i j, i ≤ j → clock i ≤ clock j)
    (hN : ∃ k, clock k < opts.scrollTimeout ∧
        opts.maxPosts ≤ (firstSeenPosts [] (feedUpTo feed (k + 1))).length) :
    (∃ K, scrapePosts feed clock opts =
        (firstSeenPosts [] (feedUpTo feed K)).take opts.maxPosts
      ∧ (opts.maxPosts ≤ (pagState feed opts.maxPosts K).1.length ∨
          opts.scrollTimeout ≤ clock K)
      ∧ ∀ j < K, (pagState feed opts.maxPosts j).1.length < opts.maxPosts
          ∧ clock j < opts.scrollTimeout)
    ∧ (scrapePosts feed clock opts).length = opts.maxPosts
    ∧ ((scrapePosts feed clock opts).map TwitterPost.postId).Nodup := by
  obtain ⟨m, _, hgo, hstop, hmin⟩ :=
    scrapePostsGo_spec feed clock opts.maxPosts opts.scrollTimeout hk
      (opts.scrollTimeout + 1) 0 (by omega)
  have hres : scrapePosts feed clock opts =
      (pagState feed opts.maxPosts m).1 := hgo
  have hfst := (pagState_spec feed opts.maxPosts m).1
  have hge : opts.maxPosts ≤
      (firstSeenPosts [] (feedUpTo feed m)).length := by
    rcases hstop with hcount | htime
    · rw [hfst, List.length_take] at hcount; omega
    · by_contra hlt
      push_neg at hlt
      obtain ⟨k, hk1, hk2⟩ := hN
      have hkm : k < m := by
        by_contra hge2
        push_neg at hge2
        have := hmono m k hge2
        omega
      have := firstSeenPosts_length_mono feed (show k + 1 ≤ m from hkm)
      omega
  refine ⟨⟨m, by rw [hres, hfst], hstop,
      fun j hj => hmin j (Nat.zero_le j) hj⟩, ?_, ?_⟩
  · rw [hres, hfst, List.length_take]; omega
  · rw [hres, hfst]
    exact List.Nodup.sublist
      ((List.take_sublist _ _).map TwitterPost.postId)
      (firstSeenPosts_ids (feedUpTo feed m) []).1

/-- Concrete feed for the C1 witness: each snapshot renders an ad, two
distinct posts and a duplicate. -/
def wfeed : Nat → List ElemOutcome := fun _ =>
  [ElemOutcome.ad, ElemOutcome.post (mkPost ("1")),
   ElemOutcome.post (mkPost ("2")), ElemOutcome.post (mkPost ("1"))]

/-- A millisecond clock advancing one per cycle. -/
def wclock : Nat → Nat := fun k => k

def wopts : ScrapeOptions := ⟨2, 5, 0⟩

/-- Witness for C1 at a concrete feed/clock/budget. -/
theorem C1_pagination_budget_witness :
    (scrapePosts wfeed wclock wopts).length = wopts.maxPosts ∧
    ((scrapePosts wfeed wclock wopts).map TwitterPost.postId).Nodup :=
  (C1_pagination_budget wfeed wclock wopts (fun j => Nat.le_refl j)
    (fun i j h => h) ⟨0, by decide, by decide⟩).2

/-- Membership propagation through the comment-scraper loop: every
returned comment originates either from the initial state or from the
tail (index ≥ 1) of some rendered snapshot. -/
theorem scrapeCommentsGo_not_mem (feed : Nat → List ElemOutcome)
    (clock : Nat → Nat) (maxC T : Nat) (mainId : String)
    (hfeed : ∀ k e, e ∈ (feed k).drop 1 → elemIdOf e ≠ some mainId) :
    ∀ fuel k st, (∀ p ∈ st.1, p.postId ≠ mainId) →
      ∀ p ∈ scrapeCommentsGo feed clock maxC T fuel k st,
        p.postId ≠ mainId := by
  intro fuel
  induction fuel with
  | zero => intro k st hst p hp; exact hst p hp
  | succ fuel ih =>
    intro k st hst p hp
    by_cases hrun : st.1.length < maxC ∧ clock k < T
    · have hstep : scrapeCommentsGo feed clock maxC T (fuel + 1) k st =
          scrapeCommentsGo feed clock maxC T fuel (k + 1)
            (commentCycle maxC (feed k) st) := by
        show (if st.1.length < maxC ∧ clock k < T then _ else _) = _
        rw [if_pos hrun]
      rw [hstep] at hp
      refine ih (k + 1) _ ?_ p hp
      intro q hq
      have hmem : q ∈ st.1 ∨ ElemOutcome.post q ∈ (feed k).drop 1 := by
        have hq2 : q ∈ (collectCycle maxC ((feed k).drop 1)
            (st.1, st.2)).1 := by
          rw [Prod.mk.eta]
          exact hq
        exact mem_collectCycle _ _ _ _ _ hq2
      rcases hmem with hin | helem
      · exact hst q hin
      · intro heq
        exact hfeed k _ helem (by simp [elemIdOf, heq])
    · have hstep : scrapeCommentsGo feed clock maxC T (fuel + 1) k st =
          st.1 := by
        show (if st.1.length < maxC ∧ clock k < T then _ else st.1) = _
        rw [if_neg hrun]
      rw [hstep] at hp
      exact hst p hp

/-- C9: in every collection cycle of the comment scraper the element at
index 0 is skipped as the presumed main post — the cycle result does not
depend on it and at most `renderedCount - 1` records can be added per
cycle — and when the main post's identity only ever appears as element 0
of a snapshot, it never occurs in the returned comment sequence. -/
theorem C9_comment_scraper_skips_first (feed : Nat → List ElemOutcome)
    (clock : Nat → Nat) (opts : ScrapeOptions) (mainId : String) :
    (∀ (max : Nat) (e e' : ElemOutcome) (elems : List ElemOutcome)
        (st : List TwitterPost × List String),
        commentCycle max (e :: elems) st = commentCycle max (e' :: elems) st)
    ∧ (∀ (max : Nat) (elems : List ElemOutcome)
        (st : List TwitterPost × List String),
        (commentCycle max elems st).1.length ≤
          st.1.length + (elems.length - 1))
    ∧ ((∀ k e, e ∈ (feed k).drop 1 → elemIdOf e ≠ some mainId) →
        ¬ mainId ∈ (scrapeComments feed clock opts).map TwitterPost.postId)
    := by
  refine ⟨?_, ?_, ?_⟩
  · intro max e e' elems st
    simp [commentCycle]
  · intro max elems st
    show (collectCycle max (elems.drop 1) st).1.length ≤ _
    have h := collectCycle_length max (elems.drop 1) st.1 st.2
    rw [Prod.mk.eta] at h
    simpa [List.length_drop] using h
  · intro hfeed hmem
    rcases List.mem_map.mp hmem with ⟨p, hp, hid⟩
    exact scrapeCommentsGo_not_mem feed clock opts.maxPosts
      opts.scrollTimeout mainId hfeed (opts.scrollTimeout + 1) 0 ([], [])
      (by intro q hq; cases hq) p hp hid

/-- Comment feed for the C9 witness: the main post renders at index 0 of
every snapshot, a single comment after it. -/
def wcfeed : Nat → List ElemOutcome := fun _ =>
  [ElemOutcome.post (mkPost ("m")), ElemOutcome.post (mkPost ("c1"))]

/-- Witness for C9 at a concrete comment feed. -/
theorem C9_comment_scraper_skips_first_witness :
    ¬ ("m") ∈ (scrapeComments wcfeed wclock wopts).map TwitterPost.postId :=
  (C9_comment_scraper_skips_first wcfeed wclock wopts ("m")).2.2 (by
    intro k e he
    simp only [wcfeed, List.drop_succ_cons, List.drop_zero,
      List.mem_singleton] at he
    subst he
    simp [elemIdOf, mkPost])

/-! ### Lemmas about the monitor's seen set -/

theorem mem_addSeenIds (posts : List TwitterPost) :
    ∀ seen x, x ∈ addSeenIds seen posts ↔
      x ∈ seen ∨ x ∈ posts.map TwitterPost.postId := by
  induction posts with
  | nil => intro seen x; simp [addSeenIds]
  | cons p rest ih =>
    intro seen x
    show x ∈ addSeenIds (if p.postId ∈ seen then seen
      else p.postId :: seen) rest ↔ _
    by_cases hp : p.postId ∈ seen
    · rw [if_pos hp, ih]
      constructor
      · rintro (h | h)
        · exact Or.inl h
        · exact Or.inr (List.mem_cons_of_mem _ h)
      · rintro (h | h)
        · exact Or.inl h
        · rcases List.mem_cons.mp h with rfl | h2
          · exact Or.inl hp
          · exact Or.inr h2
    · rw [if_neg hp, ih]
      constructor
      · rintro (h | h)
        · rcases List.mem_cons.mp h with rfl | h2
          · exact Or.inr (List.mem_cons_self _ _)
          · exact Or.inl h2
        · exact Or.inr (List.mem_cons_of_mem _ h)
      · rintro (h | h)
        · exact Or.inl (List.mem_cons_of_mem _ h)
        · rcases List.mem_cons.mp h with rfl | h2
          · exact Or.inl (List.mem_cons_self _ _)
          · exact Or.inr h2

theorem addSeenIds_length (posts : List TwitterPost) :
    ∀ seen, (posts.map TwitterPost.postId).Nodup →
      (∀ p ∈ posts, ¬ p.postId ∈ seen) →
      (addSeenIds seen posts).length = seen.length + posts.length := by
  induction posts with
  | nil => intro seen _ _; simp [addSeenIds]
  | cons p rest ih =>
    intro seen hnodup hfresh
    have hp : ¬ p.postId ∈ seen := hfresh p (List.mem_cons_self _ _)
    show (addSeenIds (if p.postId ∈ seen then seen
      else p.postId :: seen) rest).length = _
    rw [if_neg hp]
    have hnodup2 : (rest.map TwitterPost.postId).Nodup :=
      (List.nodup_cons.mp hnodup).2
    have hhead : ¬ p.postId ∈ rest.map TwitterPost.postId :=
      (List.nodup_cons.mp hnodup).1
    have hfresh2 : ∀ q ∈ rest, ¬ q.postId ∈ p.postId :: seen := by
      intro q hq hin
      rcases List.mem_cons.mp hin with heq | hin2
      · exact hhead (heq ▸ List.mem_map_of_mem TwitterPost.postId hq)
      · exact hfresh q (List.mem_cons_of_mem _ hq) hin2
    rw [ih _ hnodup2 hfresh2]
    simp only [List.length_cons]
    omega

/-- C2: the feed monitor's initial run only seeds the persistent seen set
(its identities, and nothing is emitted for it); on a tick whose current
run is `posts`, the callback payload is exactly the current run filtered
against the seen set — `some` of it exactly when it is non-empty, in the
run's (first-seen) order — the new identities are unioned into the seen
set, and the seen set grows by exactly the number of new identities. -/
theorem C2_monitor_emits_new (initial : List TwitterPost)
    (seen : List String) (posts : List TwitterPost)
    (hnodup : (posts.map TwitterPost.postId).Nodup) :
    ((monitorRun initial []).2 = []
      ∧ (monitorRun initial []).1 = addSeenIds [] initial
      ∧ ∀ x, x ∈ (monitorRun initial []).1 ↔
          x ∈ initial.map TwitterPost.postId)
    ∧ (monitorTick seen posts).2 =
        (if posts.filter (fun p => decide (¬ p.postId ∈ seen)) = []
         then none
         else some (posts.filter (fun p => decide (¬ p.postId ∈ seen))))
    ∧ (monitorTick seen posts).1.length = seen.length +
        (posts.filter (fun p => decide (¬ p.postId ∈ seen))).length
    ∧ (∀ x, x ∈ (monitorTick seen posts).1 ↔ x ∈ seen ∨
        x ∈ (posts.filter
          (fun p => decide (¬ p.postId ∈ seen))).map TwitterPost.postId)
    := by
  have hfresh : ∀ p ∈ posts.filter (fun p => decide (¬ p.postId ∈ seen)),
      ¬ p.postId ∈ seen := by
    intro p hp
    have := List.of_mem_filter hp
    exact of_decide_eq_true this
  have hfnodup : ((posts.filter
      (fun p => decide (¬ p.postId ∈ seen))).map TwitterPost.postId).Nodup :=
    List.Nodup.sublist ((List.filter_sublist _).map TwitterPost.postId)
      hnodup
  refine ⟨⟨rfl, rfl, ?_⟩, ?_, ?_, ?_⟩
  · intro x
    show x ∈ addSeenIds [] initial ↔ _
    rw [mem_addSeenIds]
    simp
  · show (if 0 < (posts.filter _).length then _ else (seen, none)).2 = _
    by_cases h : posts.filter (fun p => decide (¬ p.postId ∈ seen)) = []
    · rw [if_pos h, h]
      simp
    · rw [if_neg h, if_pos (by
        cases hl : posts.filter (fun p => decide (¬ p.postId ∈ seen)) with
        | nil => exact absurd hl h
        | cons a l => simp [hl])]
  · show (if 0 < (posts.filter _).length then _ else (seen, none)).1.length
      = _
    by_cases h : 0 < (posts.filter
        (fun p => decide (¬ p.postId ∈ seen))).length
    · rw [if_pos h]
      exact addSeenIds_length _ _ hfnodup hfresh
    · rw [if_neg h]
      show seen.length = seen.length + (posts.filter
        (fun p => decide (¬ p.postId ∈ seen))).length
      omega
  · intro x
    show x ∈ (if 0 < (posts.filter _).length then _ else (seen, none)).1 ↔ _
    by_cases h : 0 < (posts.filter
        (fun p => decide (¬ p.postId ∈ seen))).length
    · rw [if_pos h]
      exact mem_addSeenIds _ _ _
    · rw [if_neg h]
      have h0 : posts.filter (fun p => decide (¬ p.postId ∈ seen)) = [] :=
        List.length_eq_zero.mp (by omega)
      show x ∈ seen ↔ _
      rw [h0]
      simp

/-- Witness for C2: a seeded seen set of one identity, a tick rendering
one old and one new post. -/
theorem C2_monitor_emits_new_witness :
    (monitorTick [("a")] [mkPost ("a"), mkPost ("b")]).1.length =
      [("a")].length + ([mkPost ("a"), mkPost ("b")].filter
        (fun p => decide (¬ p.postId ∈ [("a")]))).length :=
  (C2_monitor_emits_new [] [("a")] [mkPost ("a"), mkPost ("b")]
    (by decide)).2.2.1

/-- C10 counterexample: a tick whose callback raises.  The tick's error is
caught (`errorCaught`), yet the new identity has already been recorded in
the seen set and the callback has been invoked — contradicting the claim
that a failing tick records no new identities and invokes no callback. -/
theorem C10_counterexample :
    (monitorTickE [] ⟨true, some [mkPost ("1")], true⟩).errorCaught = true
    ∧ ¬ (monitorTickE [] ⟨true, some [mkPost ("1")], true⟩).seen = []
    ∧ (monitorTickE [] ⟨true, some [mkPost ("1")], true⟩).callbackInvoked
        = true := by
  decide

/-- C10 (amended): if the reload or the scrape raises, the error is caught,
no identities are recorded, no callback is invoked, and the poll-interval
wait is skipped; if the callback itself raises, the new identities have
already been recorded (and the callback was invoked) before the error is
caught; every caught error skips the poll-interval wait (it lives at the
end of the `try` block), an error-free tick reaches it, and the loop
always continues to the next tick — only the stop flag ends it. -/
theorem C10_monitor_tick_errors (seen : List String) (t : TickInput) :
    (t.reloadOk = false →
        monitorTickE seen t = ⟨seen, false, true, false⟩)
    ∧ (t.reloadOk = true → t.scraped = none →
        monitorTickE seen t = ⟨seen, false, true, false⟩)
    ∧ ((monitorTickE seen t).errorCaught = true →
        (monitorTickE seen t).waited = false)
    ∧ ((monitorTickE seen t).errorCaught = false →
        (monitorTickE seen t).waited = true)
    ∧ (∀ posts, t.reloadOk = true → t.scraped = some posts →
        t.callbackThrows = true →
        0 < (posts.filter (fun p => decide (¬ p.postId ∈ seen))).length →
        monitorTickE seen t =
          ⟨addSeenIds seen
              (posts.filter (fun p => decide (¬ p.postId ∈ seen))),
            true, true, false⟩)
    ∧ (∀ ts, monitorLoopE seen (t :: ts) =
        monitorLoopE (monitorTickE seen t).seen ts) := by
  obtain ⟨ro, sc, cb⟩ := t
  cases ro with
  | false =>
    refine ⟨fun _ => rfl, fun h => absurd h (by simp), ?_, ?_, ?_, ?_⟩
    · intro _; rfl
    · intro h; exact absurd h (by simp [monitorTickE])
    · intro posts h; exact absurd h (by simp)
    · intro ts; rfl
  | true =>
    cases sc with
    | none =>
      refine ⟨fun h => absurd h (by simp), fun _ _ => rfl, ?_, ?_, ?_, ?_⟩
      · intro _; rfl
      · intro h; exact absurd h (by simp [monitorTickE])
      · intro posts _ h; exact absurd h (by simp)
      · intro ts; rfl
    | some posts =>
      have hbody : monitorTickE seen ⟨true, some posts, cb⟩ =
          (if 0 < (posts.filter
              (fun p => decide (¬ p.postId ∈ seen))).length then
            if cb then
              ⟨addSeenIds seen (posts.filter
                (fun p => decide (¬ p.postId ∈ seen))), true, true, false⟩
            else
              ⟨addSeenIds seen (posts.filter
                (fun p => decide (¬ p.postId ∈ seen))), true, false, true⟩
          else ⟨seen, false, false, true⟩) := by
        show (if 0 < (posts.filter
            (fun p => decide (¬ p.postId ∈ seen))).length then _ else _)
          = _
        by_cases h : 0 < (posts.filter
            (fun p => decide (¬ p.postId ∈ seen))).length
        · rw [if_pos h]
        · rw [if_neg h]
      refine ⟨fun h => absurd h (by simp), fun _ h => absurd h (by simp),
        ?_, ?_, ?_, ?_⟩
      · rw [hbody]
        by_cases h : 0 < (posts.filter
            (fun p => decide (¬ p.postId ∈ seen))).length
        · rw [if_pos h]
          cases cb with
          | false => intro hc; exact absurd hc (by simp)
          | true => intro _; rfl
        · rw [if_neg h]
          intro hc; exact absurd hc (by simp)
      · rw [hbody]
        by_cases h : 0 < (posts.filter
            (fun p => decide (¬ p.postId ∈ seen))).length
        · rw [if_pos h]
          cases cb with
          | false => intro _; rfl
          | true => intro hc; exact absurd hc (by simp)
        · rw [if_neg h]
          intro _; rfl
      · intro posts2 _ hsc hcb hlen
        have hpp : posts2 = posts := by
          injection hsc.symm
        subst hpp
        subst hcb
        rw [hbody, if_pos hlen]
        rfl
      · intro ts; rfl

/-- Witness for C10 at a tick whose scrape raises. -/
theorem C10_monitor_tick_errors_witness :
    monitorTickE [] ⟨true, none, false⟩ = ⟨[], false, true, false⟩ :=
  (C10_monitor_tick_errors [] ⟨true, none, false⟩).2.1 rfl rfl

/-- C5: the content extractor returns `null` — it never throws, being a
total function here after the source's outer `try`/`catch` — exactly when
the element carries no parseable identity (no status link, a null or
empty `href`, or no `/status/<digits>` match); when the identity is
parseable a record is returned even if other field lookups fail, each
failed field degrading to its empty/default value. -/
theorem C5_extractor_identity (e : TweetElem) (now : Nat) :
    (extractPostFromElement e now = none ↔ postIdentity e = none)
    ∧ ∀ pid, postIdentity e = some pid →
        (∃ r, extractPostFromElement e now = some r)
        ∧ Option.map TwitterPost.postId (extractPostFromElement e now) =
            some pid
        ∧ (e.tweetTextEl = none →
            Option.map TwitterPost.content (extractPostFromElement e now) =
              some (some ("")))
        ∧ (e.userNameLinkHref = none →
            Option.map (fun r => r.author.username)
              (extractPostFromElement e now) = some (""))
        ∧ (e.avatarSrc = none →
            Option.map (fun r => r.author.avatarUrl)
              (extractPostFromElement e now) = some (""))
        ∧ (e.likeText = none →
            Option.map (fun r => r.metrics.likesCount)
              (extractPostFromElement e now) = some (some 0))
        ∧ (e.viewsText = none →
            Option.map (fun r => r.metrics.impressionsCount)
              (extractPostFromElement e now) = some (some 0)) := by
  rcases hs : e.statusLinkHref with _ | oh
  · constructor
    · simp [extractPostFromElement, postIdentity, hs]
    · intro pid hpid
      rw [postIdentity, hs] at hpid
      exact absurd hpid (by simp)
  · rcases oh with _ | h
    · constructor
      · simp [extractPostFromElement, postIdentity, hs]
      · intro pid hpid
        rw [postIdentity, hs] at hpid
        exact absurd hpid (by simp)
    · by_cases hemp : h = ("")
      · constructor
        · simp [extractPostFromElement, postIdentity, hs, hemp]
        · intro pid hpid
          simp only [postIdentity, hs, if_pos hemp] at hpid
          exact absurd hpid (by simp)
      · cases hfind : findStatusId h.data with
        | none =>
          constructor
          · simp [extractPostFromElement, postIdentity, hs, hemp, hfind]
          · intro pid hpid
            simp only [postIdentity, hs, if_neg hemp, hfind] at hpid
            exact absurd hpid (by simp)
        | some ids =>
          constructor
          · simp [extractPostFromElement, postIdentity, hs, hemp, hfind]
          · intro pid hpid
            simp only [postIdentity, hs, if_neg hemp, hfind] at hpid
            have hpid2 : pid = String.mk ids := by
              simpa using hpid.symm
            subst hpid2
            refine ⟨⟨_, by
                simp only [extractPostFromElement, hs, if_neg hemp, hfind]
                rfl⟩, ?_, ?_, ?_, ?_, ?_, ?_⟩
            · simp [extractPostFromElement, hs, hemp, hfind]
            · intro ht
              simp [extractPostFromElement, hs, hemp, hfind, ht]
            · intro hu
              simp [extractPostFromElement, hs, hemp, hfind,
                extractUserFromElement, hu]
            · intro ha
              simp [extractPostFromElement, hs, hemp, hfind,
                extractUserFromElement, ha]
            · intro hl
              simp [extractPostFromElement, hs, hemp, hfind,
                extractMetricsFromElement, hl]
            · intro hv
              simp [extractPostFromElement, hs, hemp, hfind,
                extractMetricsFromElement, hv]

/-- C5 witness element: a parseable identity, every other lookup failing. -/
def welem : TweetElem :=
  { emptyElem with statusLinkHref := some (some ("/u/status/123")) }

/-- Witness for C5 at a concrete element. -/
theorem C5_extractor_identity_witness :
    Option.map TwitterPost.postId (extractPostFromElement welem 0) =
      some ("123")
    ∧ Option.map (fun r => r.metrics.likesCount)
        (extractPostFromElement welem 0) = some (some 0) :=
  ⟨((C5_extractor_identity welem 0).2 ("123") (by decide)).2.1,
   ((C5_extractor_identity welem 0).2 ("123") (by decide)).2.2.2.2.2.1 rfl⟩

/-- C6 counterexample element: parseable identity but no `time` element,
so the timestamp falls back to `new Date()`. -/
def elemNoTime : TweetElem :=
  { emptyElem with statusLinkHref := some (some ("/u/status/1")) }

/-- C6 counterexample: running the extractor on the same rendered element
at two different instants yields records that differ (in the timestamp
field), because a missing `datetime` is replaced by the current time —
hidden state the claim denies. -/
theorem C6_counterexample :
    ¬ extractPostFromElement elemNoTime 0 =
        extractPostFromElement elemNoTime 1 := by
  decide

/-- C6 (amended): the extractor is pure given the ambient clock: two runs
agree on every field except possibly the timestamp, and agree on the
timestamp too — hence yield identical records — whenever the element
carries a non-empty `datetime` attribute; only when it does not is the
timestamp the ambient current time, which may differ between runs. -/
theorem C6_extractor_idempotent (e : TweetElem) (n1 n2 : Nat) :
    (∀ d, e.timeDatetime = some (some d) → ¬ d = ("") →
        extractPostFromElement e n1 = extractPostFromElement e n2)
    ∧ ∀ r1 r2, extractPostFromElement e n1 = some r1 →
        extractPostFromElement e n2 = some r2 →
        r1.postId = r2.postId ∧ r1.author = r2.author
        ∧ r1.content = r2.content ∧ r1.media = r2.media
        ∧ r1.metrics = r2.metrics
        ∧ r1.engagementRate = r2.engagementRate
        ∧ r1.isRetweet = r2.isRetweet
        ∧ r1.retweetedFrom = r2.retweetedFrom
        ∧ r1.url = r2.url := by
  rcases hs : e.statusLinkHref with _ | oh
  · refine ⟨fun d _ _ => by simp [extractPostFromElement, hs], ?_⟩
    intro r1 r2 h1 _
    rw [extractPostFromElement, hs] at h1
    exact absurd h1 (by simp)
  · rcases oh with _ | h
    · refine ⟨fun d _ _ => by simp [extractPostFromElement, hs], ?_⟩
      intro r1 r2 h1 _
      rw [extractPostFromElement, hs] at h1
      exact absurd h1 (by simp)
    · by_cases hemp : h = ("")
      · refine ⟨fun d _ _ => by simp [extractPostFromElement, hs, hemp], ?_⟩
        intro r1 r2 h1 _
        simp only [extractPostFromElement, hs, if_pos hemp] at h1
        exact absurd h1 (by simp)
      · cases hfind : findStatusId h.data with
        | none =>
          refine ⟨fun d _ _ => by
            simp [extractPostFromElement, hs, hemp, hfind], ?_⟩
          intro r1 r2 h1 _
          simp only [extractPostFromElement, hs, if_neg hemp, hfind] at h1
          exact absurd h1 (by simp)
        | some ids =>
          constructor
          · intro d hd hne
            simp [extractPostFromElement, hs, hemp, hfind, hd, hne]
          · intro r1 r2 h1 h2
            simp only [extractPostFromElement, hs, if_neg hemp, hfind,
              Option.some.injEq] at h1 h2
            subst h1
            subst h2
            exact ⟨rfl, rfl, rfl, rfl, rfl, rfl, rfl, rfl, rfl⟩

/-- C6 amended-claim witness element: same element, with a `datetime`. -/
def elemWithTime : TweetElem :=
  { emptyElem with
      statusLinkHref := some (some ("/u/status/1"))
      timeDatetime := some (some ("2024-01-01T00:00:00.000Z")) }

/-- Witness for the amended C6 at two distinct instants. -/
theorem C6_extractor_idempotent_witness :
    extractPostFromElement elemWithTime 0 =
      extractPostFromElement elemWithTime 5 :=
  (C6_extractor_idempotent elemWithTime 0 5).1
    ("2024-01-01T00:00:00.000Z") (by rfl) (by decide)

/-- C7 counterexample: after the log-in click, the page never navigates to
the authenticated home within the bounded wait and remains on the x.com
login page (as it does with wrong credentials); no wrong-credentials or
alert marker is consulted, and the flow resolves to success — not to a
timeout failure as the claim requires. -/
theorem C7_counterexample :
    (SubmitEnv.navigatesToHome
        ⟨true, false, ("https://x.com/i/flow/login")⟩ = false)
    ∧ submittingState ⟨true, false, ("https://x.com/i/flow/login")⟩ =
        SubmitOutcome.authenticated := by
  decide

/-- C7 (amended): in the `Submitting` state the flow only waits (bounded)
for navigation to `https://x.com/home`; it does not race
wrong-credentials or alert markers.  When the wait times out it reports a
login failure exactly when the final URL contains neither `'/home'` nor
`'x.com'`; otherwise — including a timeout still on the x.com login
page — it resolves to success, so a timed-out submit can be reported as
authenticated rather than as an error. -/
theorem C7_submitting_state (env : SubmitEnv)
    (h : env.loginClicked = true) :
    (env.navigatesToHome = true →
        submittingState env = SubmitOutcome.authenticated)
    ∧ (submittingState env = SubmitOutcome.loginFailed env.finalUrl ↔
        env.navigatesToHome = false
        ∧ urlContains env.finalUrl ("/home") = false
        ∧ urlContains env.finalUrl ("x.com") = false)
    ∧ (env.navigatesToHome = false →
        (urlContains env.finalUrl ("/home") = true ∨
         urlContains env.finalUrl ("x.com") = true) →
        submittingState env = SubmitOutcome.authenticated) := by
  obtain ⟨lc, nav, url⟩ := env
  cases h
  refine ⟨?_, ?_, ?_⟩
  · intro hn
    cases hn
    rfl
  · cases nav with
    | true =>
      constructor
      · intro hcontra
        exact absurd hcontra (by simp [submittingState])
      · rintro ⟨hcontra, -⟩
        exact absurd hcontra (by simp)
    | false =>
      constructor
      · intro hres
        refine ⟨rfl, ?_, ?_⟩
        all_goals
          by_cases h1 : urlContains url ("/home") = true <;>
          by_cases h2 : urlContains url ("x.com") = true <;>
          simp [submittingState, h1, h2] at hres ⊢
      · rintro ⟨-, h1, h2⟩
        show (if ¬ true = true then _
          else if (false : Bool) = true then _
          else if ¬ urlContains url ("/home") = true ∧
              ¬ urlContains url ("x.com") = true then _ else _) = _
        rw [if_neg (by simp), if_neg (by simp),
          if_pos ⟨by simp [h1], by simp [h2]⟩]
  · intro hn hor
    cases hn
    show (if ¬ true = true then _
      else if (false : Bool) = true then _
      else if ¬ urlContains url ("/home") = true ∧
          ¬ urlContains url ("x.com") = true then _ else _) = _
    rw [if_neg (by simp), if_neg (by simp), if_neg (by
      rintro ⟨h1, h2⟩
      rcases hor with h | h
      · exact h1 h
      · exact h2 h)]

/-- Witness for C7: navigation to home succeeds. -/
theorem C7_submitting_state_witness :
    submittingState ⟨true, true, ("https://x.com/home")⟩ =
      SubmitOutcome.authenticated :=
  (C7_submitting_state ⟨true, true, ("https://x.com/home")⟩ rfl).1 rfl

/-- C8: the password field is resolved across the locator chain and a raw
full-document scan over password-typed inputs as the last resort (that
strategy fires only when the dynamic scan, the chain and the iframe scan
all produced nothing); whichever strategy fills the field, any prefilled
value is replaced so the final field value is exactly the password; and
the flow raises the fatal `Failed to fill password field` error exactly
when every strategy is exhausted without filling the field. -/
theorem C8_entering_password (env : PwEnv) (pw : String) :
    (enteringPassword env pw = .error ("Failed to fill password field") ↔
        (if env.dynScanOk then
            env.docInputs.find? (fun i => i.visible && pwHeuristic i)
          else none) = none
        ∧ env.selectorHits.any (fun b => b) = false
        ∧ env.iframePwInputs.find? (fun l => l.any (fun i => i.visible))
            = none
        ∧ env.docInputs.find?
            (fun i => i.itype = some ("password") && i.visible) = none)
    ∧ (∀ msg, enteringPassword env pw = .error msg →
        msg = ("Failed to fill password field"))
    ∧ (∀ s f, enteringPassword env pw = .ok (s, f) →
        ∀ prefilled, f prefilled = pw)
    ∧ (∀ f, enteringPassword env pw = .ok (.rawScan, f) →
        (if env.dynScanOk then
            env.docInputs.find? (fun i => i.visible && pwHeuristic i)
          else none) = none
        ∧ env.selectorHits.any (fun b => b) = false
        ∧ env.iframePwInputs.find? (fun l => l.any (fun i => i.visible))
            = none) := by
  cases hdyn : (if env.dynScanOk then
      env.docInputs.find? (fun i => i.visible && pwHeuristic i)
    else none) with
  | some i0 =>
    have hres : enteringPassword env pw =
        .ok (.dynamicScan, clearThenType pw) := by
      rw [enteringPassword, hdyn]
    refine ⟨?_, ?_, ?_, ?_⟩
    · rw [hres]
      exact ⟨fun hc => Except.noConfusion hc,
        fun hc => Option.noConfusion hc.1⟩
    · intro msg hok
      rw [hres] at hok
      exact Except.noConfusion hok
    · intro s f hok prefilled
      rw [hres] at hok
      injection hok with h1
      injection h1 with _ h2
      rw [← h2]
      rfl
    · intro f hok
      rw [hres] at hok
      injection hok with h1
      injection h1 with h2 _
      exact PwFill.noConfusion h2
  | none =>
    cases hsel : env.selectorHits.any (fun b => b) with
    | true =>
      have hres : enteringPassword env pw =
          .ok (.selectorChain, clearThenType pw) := by
        rw [enteringPassword, hdyn]
        show (if env.selectorHits.any (fun b => b) = true then _ else _) = _
        rw [if_pos hsel]
      refine ⟨?_, ?_, ?_, ?_⟩
      · rw [hres]
        exact ⟨fun hc => Except.noConfusion hc,
          fun hc => Bool.noConfusion hc.2.1⟩
      · intro msg hok
        rw [hres] at hok
        exact Except.noConfusion hok
      · intro s f hok prefilled
        rw [hres] at hok
        injection hok with h1
        injection h1 with _ h2
        rw [← h2]
        rfl
      · intro f hok
        rw [hres] at hok
        injection hok with h1
        injection h1 with h2 _
        exact PwFill.noConfusion h2
    | false =>
      cases hifr : env.iframePwInputs.find?
          (fun l => l.any (fun i => i.visible)) with
      | some l0 =>
        have hres : enteringPassword env pw =
            .ok (.iframeScan, fillValue pw) := by
          rw [enteringPassword, hdyn]
          show (if env.selectorHits.any (fun b => b) = true then _ else _)
            = _
          rw [if_neg (by simp [hsel]), hifr]
        refine ⟨?_, ?_, ?_, ?_⟩
        · rw [hres]
          exact ⟨fun hc => Except.noConfusion hc,
            fun hc => Option.noConfusion hc.2.2.1⟩
        · intro msg hok
          rw [hres] at hok
          exact Except.noConfusion hok
        · intro s f hok prefilled
          rw [hres] at hok
          injection hok with h1
          injection h1 with _ h2
          rw [← h2]
          rfl
        · intro f hok
          rw [hres] at hok
          injection hok with h1
          injection h1 with h2 _
          exact PwFill.noConfusion h2
      | none =>
        cases hraw : env.docInputs.find?
            (fun i => i.itype = some ("password") && i.visible) with
        | some i1 =>
          have hres : enteringPassword env pw =
              .ok (.rawScan, fillValue pw) := by
            rw [enteringPassword, hdyn]
            show (if env.selectorHits.any (fun b => b) = true then _
              else _) = _
            rw [if_neg (by simp [hsel]), hifr, hraw]
          refine ⟨?_, ?_, ?_, ?_⟩
          · rw [hres]
            exact ⟨fun hc => Except.noConfusion hc,
              fun hc => Option.noConfusion hc.2.2.2⟩
          · intro msg hok
            rw [hres] at hok
            exact Except.noConfusion hok
          · intro s f hok prefilled
            rw [hres] at hok
            injection hok with h1
            injection h1 with _ h2
            rw [← h2]
            rfl
          · intro f _
            exact ⟨rfl, rfl, rfl⟩
        | none =>
          have hres : enteringPassword env pw =
              .error ("Failed to fill password field") := by
            rw [enteringPassword, hdyn]
            show (if env.selectorHits.any (fun b => b) = true then _
              else _) = _
            rw [if_neg (by simp [hsel]), hifr, hraw]
          refine ⟨?_, ?_, ?_, ?_⟩
          · exact ⟨fun _ => ⟨rfl, rfl, rfl, rfl⟩, fun _ => hres⟩
          · intro msg hok
            rw [hres] at hok
            injection hok with h1
            exact h1.symm
          · intro s f hok prefilled
            rw [hres] at hok
            exact Except.noConfusion hok
          · intro f hok
            rw [hres] at hok
            exact Except.noConfusion hok

/-- Witness for C8: a page with no password field anywhere — every
strategy is exhausted and the fatal error is raised. -/
theorem C8_entering_password_witness :
    enteringPassword ⟨[⟨true, some ("text"), none, none, none⟩], [false],
        [], true⟩ ("hunter2") =
      Except.error ("Failed to fill password field") :=
  (C8_entering_password ⟨[⟨true, some ("text"), none, none, none⟩],
      [false], [], true⟩ ("hunter2")).1.mpr (by decide)

/-- C3 counterexample: the input `"k"` is unparsable, but because it
contains the suffix letter the `k` branch is taken and
`parseFloat('') * 1000` is `NaN` (modelled `none`), not `0` — the claim
that unparsable input yields `0` fails. -/
theorem C3_counterexample :
    parseCount ("k") = none ∧ ¬ parseCount ("k") = some 0 := by
  have h : parseCount ("k") = none := by
    norm_num +decide [parseCount, jsTrim, jsToLowerChar, removeFirstChar,
      jsParseFloat, jsParseInt, digitsToNat_nil]
  exact ⟨h, by rw [h]; exact fun hc => Option.noConfusion hc⟩

/-- C3 (amended): `parseCount` parses numeric text with suffix multipliers
`k → ×1000` and `m → ×1000000`, case-insensitively, stripping commas
before the fallback integer parse, whose unparsable inputs yield `0`
(`parseInt(...) || 0`); an input containing `k` or `m` whose remainder
does not parse as a float yields `NaN` (modelled `none`), not `0`.  In
particular `"1.2K" → 1200`, `"3M" → 3000000`, `"12,345" → 12345`,
`"" → 0`. -/
theorem C3_parse_count :
    parseCount ("1.2K") = some 1200
    ∧ parseCount ("3M") = some 3000000
    ∧ parseCount ("12,345") = some 12345
    ∧ parseCount ("") = some 0
    ∧ parseCount ("1.2k") = some 1200
    ∧ (∀ s : String, ¬ s = ("") →
        ((jsTrim s.data).map jsToLowerChar).contains 'k' = true →
        parseCount s = (jsParseFloat (removeFirstChar 'k'
          ((jsTrim s.data).map jsToLowerChar))).map (fun q => q * 1000))
    ∧ (∀ s : String, ¬ s = ("") →
        ((jsTrim s.data).map jsToLowerChar).contains 'k' = false →
        ((jsTrim s.data).map jsToLowerChar).contains 'm' = true →
        parseCount s = (jsParseFloat (removeFirstChar 'm'
          ((jsTrim s.data).map jsToLowerChar))).map (fun q => q * 1000000))
    ∧ (∀ s : String, ¬ s = ("") →
        ((jsTrim s.data).map jsToLowerChar).contains 'k' = false →
        ((jsTrim s.data).map jsToLowerChar).contains 'm' = false →
        parseCount s = some (((jsParseInt (((jsTrim s.data).map
          jsToLowerChar).filter (fun c => c ≠ ','))).getD 0 : Int) : ℚ))
    := by
  refine ⟨?_, ?_, ?_, ?_, ?_, ?_, ?_, ?_⟩
  · have d1 : digitsToNat ['1'] = 1 := by decide
    have d2 : digitsToNat ['2'] = 2 := by decide
    norm_num +decide [parseCount, jsTrim, jsToLowerChar, removeFirstChar,
      jsParseFloat, jsParseInt, d1, d2, digitsToNat_nil]
  · have d3 : digitsToNat ['3'] = 3 := by decide
    norm_num +decide [parseCount, jsTrim, jsToLowerChar, removeFirstChar,
      jsParseFloat, jsParseInt, d3, digitsToNat_nil]
  · have d5 : digitsToNat ['1', '2', '3', '4', '5'] = 12345 := by decide
    norm_num +decide [parseCount, jsTrim, jsToLowerChar, removeFirstChar,
      jsParseFloat, jsParseInt, d5, digitsToNat_nil]
  · norm_num +decide [parseCount]
  · have d1 : digitsToNat ['1'] = 1 := by decide
    have d2 : digitsToNat ['2'] = 2 := by decide
    norm_num +decide [parseCount, jsTrim, jsToLowerChar, removeFirstChar,
      jsParseFloat, jsParseInt, d1, d2, digitsToNat_nil]
  · intro s hs hk
    rw [parseCount, if_neg hs]
    show (if ((jsTrim s.data).map jsToLowerChar).contains 'k' = true
      then _ else _) = _
    rw [if_pos hk]
  · intro s hs hk hm
    rw [parseCount, if_neg hs]
    show (if ((jsTrim s.data).map jsToLowerChar).contains 'k' = true
      then _ else _) = _
    rw [if_neg (by rw [hk]; simp)]
    show (if ((jsTrim s.data).map jsToLowerChar).contains 'm' = true
      then _ else _) = _
    rw [if_pos hm]
  · intro s hs hk hm
    rw [parseCount, if_neg hs]
    show (if ((jsTrim s.data).map jsToLowerChar).contains 'k' = true
      then _ else _) = _
    rw [if_neg (by rw [hk]; simp)]
    show (if ((jsTrim s.data).map jsToLowerChar).contains 'm' = true
      then _ else _) = _
    rw [if_neg (by rw [hm]; simp)]

/-- Witness for C3 at the k-multiplier law. -/
theorem C3_parse_count_witness :
    parseCount ("1.2K") = (jsParseFloat (removeFirstChar 'k'
      ((jsTrim ("1.2K").data).map jsToLowerChar))).map (fun q => q * 1000)
    :=
  C3_parse_count.2.2.2.2.2.1 ("1.2K") (by decide) (by decide)

/-- C4: the engagement rate is
`(likes + reshares + replies) / impressions × 100`, and `0` when
impressions is `0`; in particular likes=50, reshares=10, replies=5 give
`0` at impressions=0 and `6.5` at impressions=1000. -/
theorem C4_engagement_rate (l r p i : ℕ) :
    calculateEngagementRate (some l) (some r) (some p) (some 0) = some 0
    ∧ (0 < i →
        calculateEngagementRate (some l) (some r) (some p) (some i) =
          some (((l : ℚ) + r + p) / i * 100))
    ∧ calculateEngagementRate (some 50) (some 10) (some 5) (some 0) = some 0
    ∧ calculateEngagementRate (some 50) (some 10) (some 5) (some 1000) =
        some (13 / 2) := by
  refine ⟨?_, ?_, ?_, ?_⟩
  · rw [calculateEngagementRate, if_pos rfl]
  · intro hi
    rw [calculateEngagementRate,
      if_neg (by simp [Nat.cast_eq_zero]; omega)]
  · rw [calculateEngagementRate, if_pos rfl]
  · norm_num [calculateEngagementRate]

/-- Witness for C4 at the spec's example numbers. -/
theorem C4_engagement_rate_witness :
    (0 : ℕ) < 1000 ∧
    calculateEngagementRate (some ((50 : ℕ) : ℚ)) (some ((10 : ℕ) : ℚ))
      (some ((5 : ℕ) : ℚ)) (some ((1000 : ℕ) : ℚ)) =
      some ((((50 : ℕ) : ℚ) + ((10 : ℕ) : ℚ) + ((5 : ℕ) : ℚ)) /
        ((1000 : ℕ) : ℚ) * 100) :=
  ⟨by norm_num, (C4_engagement_rate 50 10 5 1000).2.1 (by norm_num)⟩

end XMCP
